import Mathlib

/-!
Verification of the sprite-sheet atlas addressing logic of
`src/textures/icons.c` (opengl_playground).

The source's addressing arithmetic lives in the vertex shader string of
`init()`: from the `icon_id` uniform (`uvec2`: current icon id, icons per
side) and the per-vertex texture coordinate `v_tex` it computes

  square_side  = 1 / icon_id.y
  u = mod(icon_id.x, icon_id.y) * square_side + v_tex.x * square_side
  v = (icon_id.y - 1u - icon_id.x / icon_id.y) * square_side
      + v_tex.y * square_side

with unsigned 32-bit integer arithmetic on the `uvec2` components
(wrapping subtraction, truncating division) and GLSL float arithmetic
for the rest.  We idealize GLSL floats as exact rationals (ℚ) and model
the 32-bit unsigned components as naturals reduced modulo 2^32.

The spec's §4.1 "Atlas Addressor" (`AtlasLayout`, `rectForIndex`,
`indexForPoint`, the OutOfRange / InvalidLayout error kinds) is a small
reusable abstraction that the repository itself does not contain as a
standalone function; it is modelled here from the spec's words and
proved to agree with the shader arithmetic embedded from the source.

The key callback `key_cb` of `icons.c` (arrow keys and digit keys
mutating the global `GLuint icon_id[2]` plus the window-should-close
flag) is embedded as an explicit state-passing function.
-/

namespace Icons

/-- Modulus of the 32-bit unsigned integer type `GLuint` / GLSL `uint`. -/
def uintMod : ℕ := 2 ^ 32

/-- GLSL unsigned 32-bit subtraction `a - b` (wrapping), for a left
operand already reduced modulo 2^32. -/
def usub (a b : ℕ) : ℕ := (a + uintMod - b % uintMod) % uintMod

/-- Shader line `float square_side = float(1)/float(icon_id.y);`,
idealizing the float division as exact rational division. -/
def square_side (perSide : ℕ) : ℚ := 1 / (perSide : ℚ)

/-- First component of `vs_tex_coord` computed by the vertex shader:
`mod(icon_id.x, icon_id.y) * square_side + v_tex.x * square_side`.
For non-negative integer arguments GLSL's float `mod` agrees with
integer remainder, modelled exactly. -/
def vs_tex_coord_u (iconId perSide : ℕ) (vTexX : ℚ) : ℚ :=
  ((iconId % perSide : ℕ) : ℚ) * square_side perSide + vTexX * square_side perSide

/-- Shader subexpression `icon_id.y - uint(1) - icon_id.x / icon_id.y`:
the inverted row, computed with wrapping unsigned 32-bit subtraction and
truncating unsigned division. -/
def vs_inv_row (iconId perSide : ℕ) : ℕ :=
  usub (usub perSide 1) (iconId / perSide)

/-- Second component of `vs_tex_coord` computed by the vertex shader:
`(icon_id.y - uint(1) - icon_id.x/icon_id.y) * square_side + v_tex.y * square_side`. -/
def vs_tex_coord_v (iconId perSide : ℕ) (vTexY : ℚ) : ℚ :=
  ((vs_inv_row iconId perSide : ℕ) : ℚ) * square_side perSide
    + vTexY * square_side perSide

/-- Normalized texture-coordinate rectangle (spec §3 `UVRect`). -/
structure UVRect where
  uMin : ℚ
  vMin : ℚ
  uMax : ℚ
  vMax : ℚ
deriving DecidableEq, Repr

/-- Rectangle spanned by the vertex shader's `vs_tex_coord` output as
`v_tex` ranges over the corners {0,1}² (the quad's texture coordinates
in `quad_data` take exactly the corner values 0 and 1 in each axis). -/
def shaderRect (iconId perSide : ℕ) : UVRect :=
  { uMin := vs_tex_coord_u iconId perSide 0
    vMin := vs_tex_coord_v iconId perSide 0
    uMax := vs_tex_coord_u iconId perSide 1
    vMax := vs_tex_coord_v iconId perSide 1 }

/-- Modelled from the spec: error kinds of §7 (the repository has no
standalone addressor, hence no error type of its own). -/
inductive AtlasError where
  | outOfRange
  | invalidLayout
deriving DecidableEq, Repr

/-- Modelled from the spec: §3 `AtlasLayout`, an immutable value holding
the positive number of regions per side of the square atlas. -/
structure AtlasLayout where
  sideCount : ℕ
deriving DecidableEq, Repr

/-- Modelled from the spec: §7 InvalidLayout — `sideCount <= 0` is
rejected at `AtlasLayout` construction time. -/
def mkAtlasLayout (sideCount : ℤ) : Except AtlasError AtlasLayout :=
  if sideCount ≤ 0 then .error .invalidLayout
  else .ok { sideCount := sideCount.toNat }

/-- Modelled from the spec: §4.1 `rectForIndex`.  With
`s = 1/sideCount`, `col = index mod sideCount`,
`row = index div sideCount` (floor division),
`invRow = sideCount - 1 - row`, the result is
`uMin = col*s`, `uMax = uMin + s`, `vMin = invRow*s`, `vMax = vMin + s`;
an index outside `[0, sideCount²)` fails with OutOfRange. -/
def rectForIndex (layout : AtlasLayout) (index : ℤ) : Except AtlasError UVRect :=
  if index < 0 ∨ (layout.sideCount : ℤ) ^ 2 ≤ index then .error .outOfRange
  else
    let n : ℕ := layout.sideCount
    let i : ℕ := index.toNat
    let s : ℚ := 1 / (n : ℚ)
    let col : ℕ := i % n
    let invRow : ℕ := n - 1 - i / n
    .ok { uMin := (col : ℚ) * s
          vMin := (invRow : ℚ) * s
          uMax := (col : ℚ) * s + s
          vMax := (invRow : ℚ) * s + s }

/-- Modelled from the spec: §4.1 `indexForPoint`, the inverse mapping:
`col = floor(u / s)`, `invRow = floor(v / s)`,
`row = sideCount - 1 - invRow`, `index = row * sideCount + col`. -/
def indexForPoint (layout : AtlasLayout) (u v : ℚ) : ℤ :=
  let s : ℚ := 1 / (layout.sideCount : ℚ)
  let col : ℤ := ⌊u / s⌋
  let invRow : ℤ := ⌊v / s⌋
  let row : ℤ := (layout.sideCount : ℤ) - 1 - invRow
  row * (layout.sideCount : ℤ) + col

/-- Center point of a `UVRect` (spec §8 round-trip law's `centerOf`). -/
def centerOf (r : UVRect) : ℚ × ℚ :=
  ((r.uMin + r.uMax) / 2, (r.vMin + r.vMax) / 2)

/-- Mutable state touched by `key_cb` in `icons.c`: the two components
of the global `GLuint icon_id[2]` (current icon id, icons per side) and
the window-should-close flag set via `glfwSetWindowShouldClose`. -/
structure AppState where
  iconId0 : ℕ
  iconId1 : ℕ
  shouldClose : Bool
deriving DecidableEq, Repr

/-- GLFW constant: `GLFW_PRESS`. -/
def GLFW_PRESS : ℤ := 1

/-- GLFW constant: `GLFW_KEY_ESCAPE`. -/
def GLFW_KEY_ESCAPE : ℤ := 256

/-- GLFW constant: `GLFW_KEY_RIGHT`. -/
def GLFW_KEY_RIGHT : ℤ := 262

/-- GLFW constant: `GLFW_KEY_LEFT`. -/
def GLFW_KEY_LEFT : ℤ := 263

/-- Initial value of the global: `GLuint icon_id[2] = {0, 4};` with the
window not yet asked to close. -/
def initialState : AppState := { iconId0 := 0, iconId1 := 4, shouldClose := false }

/-- Embedding of `key_cb` from `icons.c`: Escape press requests close;
a digit key press (`'0'` = 48 … `'9'` = 57) sets `icon_id[0]` to
`key - '0'`; otherwise a RIGHT-arrow press increments and a LEFT-arrow
press decrements `icon_id[0]`, both with `GLuint` (mod 2^32) wraparound
and no bound check.  `scancode` and `mods` are ignored by the source. -/
def key_cb (st : AppState) (key scancode action mods : ℤ) : AppState :=
  let st1 := if key = GLFW_KEY_ESCAPE ∧ action = GLFW_PRESS
             then { st with shouldClose := true } else st
  if 48 ≤ key ∧ key ≤ 57 ∧ action = GLFW_PRESS then
    { st1 with iconId0 := (key - 48).toNat }
  else if key = GLFW_KEY_RIGHT ∧ action = GLFW_PRESS then
    { st1 with iconId0 := (st1.iconId0 + 1) % uintMod }
  else if key = GLFW_KEY_LEFT ∧ action = GLFW_PRESS then
    { st1 with iconId0 := (st1.iconId0 + uintMod - 1) % uintMod }
  else st1

end Icons

namespace Icons

/-- Helper: a valid index's row is below `sideCount`. -/
lemma div_lt_side (n i : ℕ) (hn : 1 ≤ n) (hi : i < n ^ 2) : i / n < n := by
  rw [pow_two] at hi
  exact (Nat.div_lt_iff_lt_mul (by omega)).mpr hi

/-- Helper: on in-range inputs the shader's wrapping unsigned
subtractions do not wrap, so its inverted row is `sideCount - 1 - row`. -/
lemma vs_inv_row_eq (i n : ℕ) (hn : 1 ≤ n) (hn32 : n < uintMod)
    (hi : i < n ^ 2) : vs_inv_row i n = n - 1 - i / n := by
  have hq : i / n < n := div_lt_side n i hn hi
  rw [vs_inv_row, usub, usub]
  simp only [uintMod]
  generalize i / n = q at hq ⊢
  simp only [uintMod] at hn32
  omega

/-- Helper: `rectForIndex` on an in-range natural index, written with
natural-number column, row and inverted row. -/
lemma rectForIndex_eq_ok (n i : ℕ) (hi : i < n ^ 2) :
    rectForIndex ⟨n⟩ (i : ℤ) = .ok
      { uMin := ((i % n : ℕ) : ℚ) * (1 / (n : ℚ))
        vMin := ((n - 1 - i / n : ℕ) : ℚ) * (1 / (n : ℚ))
        uMax := ((i % n : ℕ) : ℚ) * (1 / (n : ℚ)) + 1 / (n : ℚ)
        vMax := ((n - 1 - i / n : ℕ) : ℚ) * (1 / (n : ℚ)) + 1 / (n : ℚ) } := by
  rw [rectForIndex, if_neg]
  · simp
  · push_neg
    exact ⟨by exact_mod_cast Nat.zero_le i, by exact_mod_cast hi⟩

/-- Helper: floor of the center of a cell starting at `c` cells, in
units of one cell, is `c`. -/
lemma floor_center (n c : ℕ) (hn : 1 ≤ n) :
    ⌊((c : ℚ) * (1 / (n : ℚ)) + ((c : ℚ) * (1 / (n : ℚ)) + 1 / (n : ℚ))) / 2 / (1 / (n : ℚ))⌋
      = (c : ℤ) := by
  have hn0 : (0 : ℚ) < (n : ℚ) := by exact_mod_cast (by omega : 0 < n)
  rw [show ((c : ℚ) * (1 / (n : ℚ)) + ((c : ℚ) * (1 / (n : ℚ)) + 1 / (n : ℚ))) / 2 / (1 / (n : ℚ))
        = (c : ℚ) + 1 / 2 from by rw [div_div, div_eq_iff (by positivity)]; ring]
  rw [show ((c : ℚ)) = (((c : ℤ)) : ℚ) from by norm_cast]
  rw [Int.floor_int_add]
  norm_num

/-- Helper: a successor index that does not start a new row has the same
row and the next column. -/
lemma succ_same_row (N m : ℕ) (hN : 0 < N) (h : (m + 1) % N ≠ 0) :
    (m + 1) % N = m % N + 1 ∧ (m + 1) / N = m / N := by
  have hm : m % N < N := Nat.mod_lt m hN
  rcases Nat.lt_or_ge (m % N + 1) N with hlt | hge
  · constructor
    · conv_lhs => rw [← Nat.div_add_mod m N]
      rw [Nat.add_assoc, Nat.mul_add_mod, Nat.mod_eq_of_lt hlt]
    · conv_lhs => rw [← Nat.div_add_mod m N]
      rw [Nat.add_assoc, Nat.mul_add_div hN, Nat.div_eq_of_lt hlt, Nat.add_zero]
  · exfalso
    apply h
    have hEq : m % N + 1 = N := by omega
    conv_lhs => rw [← Nat.div_add_mod m N]
    rw [Nat.add_assoc, hEq, Nat.mul_add_mod, Nat.mod_self]

/-- C1: for every layout with `sideCount ≥ 1` and every index in
`[0, sideCount²)`, `rectForIndex` returns exactly the rectangle of the
spec's arithmetic (`s = 1/sideCount`, `col = index mod sideCount`,
`row = index div sideCount`, `invRow = sideCount - 1 - row`,
`uMin = col*s`, `uMax = uMin+s`, `vMin = invRow*s`, `vMax = vMin+s`),
and — whenever the values fit the 32-bit `icon_id` uniform — that is the
same rectangle the vertex shader's computation spans. -/
theorem rectForIndex_matches_shader (layout : AtlasLayout) (hn : 1 ≤ layout.sideCount)
    (index : ℤ) (h0 : 0 ≤ index) (h1 : index < (layout.sideCount : ℤ) ^ 2) :
    rectForIndex layout index = Except.ok
      { uMin := ((index % (layout.sideCount : ℤ) : ℤ) : ℚ) * (1 / (layout.sideCount : ℚ))
        vMin := (((layout.sideCount : ℤ) - 1 - index / (layout.sideCount : ℤ) : ℤ) : ℚ)
                  * (1 / (layout.sideCount : ℚ))
        uMax := ((index % (layout.sideCount : ℤ) : ℤ) : ℚ) * (1 / (layout.sideCount : ℚ))
                  + 1 / (layout.sideCount : ℚ)
        vMax := (((layout.sideCount : ℤ) - 1 - index / (layout.sideCount : ℤ) : ℤ) : ℚ)
                  * (1 / (layout.sideCount : ℚ)) + 1 / (layout.sideCount : ℚ) } ∧
    (layout.sideCount < uintMod → index < (uintMod : ℤ) →
      rectForIndex layout index = Except.ok (shaderRect index.toNat layout.sideCount)) := by
  obtain ⟨n⟩ := layout
  simp only at hn h1 ⊢
  lift index to ℕ using h0 with i
  have hi : i < n ^ 2 := by exact_mod_cast h1
  have hq : i / n < n := div_lt_side n i hn hi
  have hmod : ((i : ℤ) % (n : ℤ)) = ((i % n : ℕ) : ℤ) := by push_cast; ring
  have hdiv : ((i : ℤ) / (n : ℤ)) = ((i / n : ℕ) : ℤ) := by push_cast; ring
  have hinv : ((n : ℤ) - 1 - ((i / n : ℕ) : ℤ)) = ((n - 1 - i / n : ℕ) : ℤ) := by omega
  constructor
  · rw [rectForIndex_eq_ok n i hi, hmod, hdiv, hinv]
    norm_cast
  · intro hn32 hi32
    rw [rectForIndex_eq_ok n i hi]
    simp only [Int.toNat_natCast, shaderRect, vs_tex_coord_u, vs_tex_coord_v, square_side]
    rw [vs_inv_row_eq i n hn hn32 hi]
    norm_num

/-- C1 witness: at `sideCount = 4`, `index = 6`, the returned rectangle
is `{1/2, 1/2, 3/4, 3/4}` and agrees with the shader's rectangle. -/
theorem rectForIndex_matches_shader_witness :
    rectForIndex ⟨4⟩ 6 = Except.ok ⟨1/2, 1/2, 3/4, 3/4⟩ ∧
    rectForIndex ⟨4⟩ 6 = Except.ok (shaderRect 6 4) := by
  have h := rectForIndex_matches_shader ⟨4⟩ (by decide) 6 (by decide) (by decide)
  refine ⟨?_, h.2 (by decide) (by decide)⟩
  rw [h.1]
  norm_num

/-- C2: for every layout with `sideCount ≥ 1` and every index in
`[0, sideCount²)`, the rectangle lies within `[0,1]²` with
`uMin < uMax` and `vMin < vMax`, and its width and height both equal
`1/sideCount` exactly. -/
theorem rect_within_unit_square (layout : AtlasLayout) (hn : 1 ≤ layout.sideCount)
    (index : ℤ) (h0 : 0 ≤ index) (h1 : index < (layout.sideCount : ℤ) ^ 2) :
    ∃ r, rectForIndex layout index = Except.ok r ∧
      0 ≤ r.uMin ∧ r.uMin < r.uMax ∧ r.uMax ≤ 1 ∧
      0 ≤ r.vMin ∧ r.vMin < r.vMax ∧ r.vMax ≤ 1 ∧
      r.uMax - r.uMin = 1 / (layout.sideCount : ℚ) ∧
      r.vMax - r.vMin = 1 / (layout.sideCount : ℚ) := by
  obtain ⟨n⟩ := layout
  simp only at hn h1 ⊢
  lift index to ℕ using h0 with i
  have hi : i < n ^ 2 := by exact_mod_cast h1
  have hq : i / n < n := div_lt_side n i hn hi
  have hn0 : (0 : ℚ) < (n : ℚ) := by exact_mod_cast (by omega : 0 < n)
  have hs : (0 : ℚ) < 1 / (n : ℚ) := by positivity
  have hc : ((i % n : ℕ) : ℚ) + 1 ≤ (n : ℚ) := by
    exact_mod_cast Nat.mod_lt i (by omega : 0 < n)
  have hsub : n - 1 - i / n ≤ n - 1 := Nat.sub_le _ _
  have hrN : n - 1 - i / n + 1 ≤ n := by omega
  have hr : ((n - 1 - i / n : ℕ) : ℚ) + 1 ≤ (n : ℚ) := by exact_mod_cast hrN
  refine ⟨_, rectForIndex_eq_ok n i hi, ?_, ?_, ?_, ?_, ?_, ?_, ?_, ?_⟩
  all_goals dsimp only
  · positivity
  · linarith
  · calc ((i % n : ℕ) : ℚ) * (1 / (n : ℚ)) + 1 / (n : ℚ)
        = (((i % n : ℕ) : ℚ) + 1) * (1 / (n : ℚ)) := by ring
      _ ≤ (n : ℚ) * (1 / (n : ℚ)) := mul_le_mul_of_nonneg_right hc (le_of_lt hs)
      _ = 1 := by field_simp
  · positivity
  · linarith
  · calc ((n - 1 - i / n : ℕ) : ℚ) * (1 / (n : ℚ)) + 1 / (n : ℚ)
        = (((n - 1 - i / n : ℕ) : ℚ) + 1) * (1 / (n : ℚ)) := by ring
      _ ≤ (n : ℚ) * (1 / (n : ℚ)) := mul_le_mul_of_nonneg_right hr (le_of_lt hs)
      _ = 1 := by field_simp
  · ring
  · ring

/-- C2 witness: at `sideCount = 4`, `index = 6` the rectangle is within
the unit square and has width and height `1/4`. -/
theorem rect_within_unit_square_witness :
    ∃ r, rectForIndex ⟨4⟩ 6 = Except.ok r ∧
      0 ≤ r.uMin ∧ r.uMin < r.uMax ∧ r.uMax ≤ 1 ∧
      0 ≤ r.vMin ∧ r.vMin < r.vMax ∧ r.vMax ≤ 1 ∧
      r.uMax - r.uMin = 1 / 4 ∧ r.vMax - r.vMin = 1 / 4 := by
  have h := rect_within_unit_square ⟨4⟩ (by decide) 6 (by decide) (by decide)
  norm_num at h
  exact h

/-- C3: round-trip law — for every layout with `sideCount ≥ 1` and every
index in `[0, sideCount²)`, `indexForPoint` applied to the center of
`rectForIndex`'s rectangle returns the original index. -/
theorem indexForPoint_round_trip (layout : AtlasLayout) (hn : 1 ≤ layout.sideCount)
    (index : ℤ) (h0 : 0 ≤ index) (h1 : index < (layout.sideCount : ℤ) ^ 2) :
    (rectForIndex layout index).map
      (fun r => indexForPoint layout (centerOf r).1 (centerOf r).2) = Except.ok index := by
  obtain ⟨n⟩ := layout
  simp only at hn h1 ⊢
  lift index to ℕ using h0 with i
  have hi : i < n ^ 2 := by exact_mod_cast h1
  have hq : i / n < n := div_lt_side n i hn hi
  rw [rectForIndex_eq_ok n i hi]
  simp only [Except.map, centerOf, indexForPoint]
  rw [floor_center n (i % n) hn, floor_center n (n - 1 - i / n) hn]
  refine congrArg Except.ok ?_
  have hrow : ((n : ℤ) - 1 - ((n - 1 - i / n : ℕ) : ℤ)) = ((i / n : ℕ) : ℤ) := by omega
  rw [hrow]
  have h2 : ((n : ℤ) * ((i / n : ℕ) : ℤ) + ((i % n : ℕ) : ℤ)) = (i : ℤ) := by
    exact_mod_cast Nat.div_add_mod i n
  linarith

/-- C3 witness: at `sideCount = 4`, `index = 6` the round trip through
the rectangle's center returns 6. -/
theorem indexForPoint_round_trip_witness :
    (rectForIndex ⟨4⟩ 6).map
      (fun r => indexForPoint ⟨4⟩ (centerOf r).1 (centerOf r).2) = Except.ok 6 :=
  indexForPoint_round_trip ⟨4⟩ (by decide) 6 (by decide) (by decide)

/-- C4: for every layout with `sideCount ≥ 1`, an index outside
`[0, sideCount²)` makes `rectForIndex` fail with OutOfRange instead of
returning a rectangle. -/
theorem rectForIndex_rejects_out_of_range (layout : AtlasLayout) (hn : 1 ≤ layout.sideCount)
    (index : ℤ) (h : index < 0 ∨ (layout.sideCount : ℤ) ^ 2 ≤ index) :
    rectForIndex layout index = Except.error AtlasError.outOfRange := by
  rw [rectForIndex, if_pos h]

/-- C4 witness: at `sideCount = 4`, the one-past-the-end index
`16 = 4²` is rejected with OutOfRange. -/
theorem rectForIndex_rejects_out_of_range_witness :
    rectForIndex ⟨4⟩ 16 = Except.error AtlasError.outOfRange :=
  rectForIndex_rejects_out_of_range ⟨4⟩ (by decide) 16 (by decide)

/-- C5 counterexample: at `sideCount = 4`, `rectForIndex` at index 0
does not return `{uMin 0, vMin 0, uMax 1/4, vMax 1/4}`: its `vMin` is
`3/4`, not 0, because of the row inversion `invRow = sideCount-1-row`. -/
theorem rectForIndex_index_zero_not_bottom_left :
    rectForIndex ⟨4⟩ 0 ≠ Except.ok ⟨0, 0, 1/4, 1/4⟩ := by
  simp [rectForIndex]

/-- C5 amended: at `sideCount = 4`, index 0 maps to
`{uMin 0, vMin 3/4, uMax 1/4, vMax 1}` — the leftmost rectangle of the
v-topmost band of normalized UV space, where the row inversion places
the image's bottom-left icon for loaders storing row 0 as the top. -/
theorem rectForIndex_index_zero_top_band :
    rectForIndex ⟨4⟩ 0 = Except.ok ⟨0, 3/4, 1/4, 1⟩ := by
  norm_num [rectForIndex]

/-- C6: for adjacent valid indices in the same row
(`(index+1) mod sideCount ≠ 0`), the rectangles share `vMin` and `vMax`
and the second one's `uMin` and `uMax` are larger by exactly
`s = 1/sideCount`. -/
theorem adjacent_same_row (layout : AtlasLayout) (hn : 1 ≤ layout.sideCount) (index : ℤ)
    (h0 : 0 ≤ index) (h1 : index + 1 < (layout.sideCount : ℤ) ^ 2)
    (hrow : (index + 1) % (layout.sideCount : ℤ) ≠ 0) :
    ∃ r r', rectForIndex layout index = Except.ok r ∧
      rectForIndex layout (index + 1) = Except.ok r' ∧
      r'.vMin = r.vMin ∧ r'.vMax = r.vMax ∧
      r'.uMin = r.uMin + 1 / (layout.sideCount : ℚ) ∧
      r'.uMax = r.uMax + 1 / (layout.sideCount : ℚ) := by
  obtain ⟨n⟩ := layout
  simp only at hn h1 hrow ⊢
  lift index to ℕ using h0 with i
  have hi1 : i + 1 < n ^ 2 := by exact_mod_cast h1
  have hi : i < n ^ 2 := by omega
  have hrowN : (i + 1) % n ≠ 0 := by
    intro hz
    apply hrow
    have hcast : ((i : ℤ) + 1) % (n : ℤ) = (((i + 1) % n : ℕ) : ℤ) := by push_cast; ring
    rw [hcast]
    exact_mod_cast hz
  obtain ⟨hmodS, hdivS⟩ := succ_same_row n i (by omega) hrowN
  have e2 : rectForIndex ⟨n⟩ ((i : ℤ) + 1) = Except.ok
      { uMin := (((i + 1) % n : ℕ) : ℚ) * (1 / (n : ℚ))
        vMin := ((n - 1 - (i + 1) / n : ℕ) : ℚ) * (1 / (n : ℚ))
        uMax := (((i + 1) % n : ℕ) : ℚ) * (1 / (n : ℚ)) + 1 / (n : ℚ)
        vMax := ((n - 1 - (i + 1) / n : ℕ) : ℚ) * (1 / (n : ℚ)) + 1 / (n : ℚ) } := by
    rw [show ((i : ℤ) + 1) = ((i + 1 : ℕ) : ℤ) from by push_cast; ring]
    exact rectForIndex_eq_ok n (i + 1) hi1
  refine ⟨_, _, rectForIndex_eq_ok n i hi, e2, ?_, ?_, ?_, ?_⟩
  all_goals dsimp only
  · rw [hdivS]
  · rw [hdivS]
  · rw [hmodS]; push_cast; ring
  · rw [hmodS]; push_cast; ring

/-- C6 witness: at `sideCount = 4`, indices 5 and 6 sit in the same row
and their rectangles differ by a `1/4` shift in `uMin` and `uMax`. -/
theorem adjacent_same_row_witness :
    ∃ r r', rectForIndex ⟨4⟩ 5 = Except.ok r ∧
      rectForIndex ⟨4⟩ 6 = Except.ok r' ∧
      r'.vMin = r.vMin ∧ r'.vMax = r.vMax ∧
      r'.uMin = r.uMin + 1 / 4 ∧ r'.uMax = r.uMax + 1 / 4 := by
  have h := adjacent_same_row ⟨4⟩ (by decide) 5 (by decide) (by decide) (by decide)
  norm_num at h
  obtain ⟨r, hr, r', hr', h1, h2, h3, h4⟩ := h
  exact ⟨r, r', hr, hr', h1, h2, h3, h4⟩

/-- C7: constructing an `AtlasLayout` with `sideCount ≤ 0` fails with
InvalidLayout, and any successfully constructed layout has
`sideCount ≥ 1`, so `rectForIndex` is never invoked on a non-positive
side count. -/
theorem mkAtlasLayout_validation (n : ℤ) :
    (n ≤ 0 → mkAtlasLayout n = Except.error AtlasError.invalidLayout) ∧
    (∀ layout, mkAtlasLayout n = Except.ok layout → 1 ≤ layout.sideCount) := by
  constructor
  · intro h
    rw [mkAtlasLayout, if_pos h]
  · intro layout heq
    rw [mkAtlasLayout] at heq
    split_ifs at heq with h
    injection heq with h2
    subst h2
    show 1 ≤ n.toNat
    omega

/-- C7 witness: `sideCount = 0` is rejected with InvalidLayout, while
the layout constructed from 4 has a positive side count. -/
theorem mkAtlasLayout_validation_witness :
    mkAtlasLayout 0 = Except.error AtlasError.invalidLayout ∧
    1 ≤ ((⟨4⟩ : AtlasLayout) : AtlasLayout).sideCount :=
  ⟨(mkAtlasLayout_validation 0).1 (by norm_num),
   (mkAtlasLayout_validation 4).2 ⟨4⟩ rfl⟩

/-- C8: in `key_cb`, a RIGHT-arrow press increments and a LEFT-arrow
press decrements the stored icon index with unsigned 32-bit (mod 2^32)
arithmetic and no bound check; a LEFT-arrow press at index 0 wraps to
`2^32 - 1`. -/
theorem key_cb_arrow_wraps (st : AppState) (sc mods : ℤ) :
    (key_cb st GLFW_KEY_RIGHT sc GLFW_PRESS mods).iconId0 = (st.iconId0 + 1) % 2 ^ 32 ∧
    (key_cb st GLFW_KEY_LEFT sc GLFW_PRESS mods).iconId0 = (st.iconId0 + 2 ^ 32 - 1) % 2 ^ 32 ∧
    (st.iconId0 = 0 → (key_cb st GLFW_KEY_LEFT sc GLFW_PRESS mods).iconId0 = 2 ^ 32 - 1) := by
  refine ⟨?_, ?_, fun h0 => ?_⟩ <;>
    norm_num [key_cb, GLFW_KEY_RIGHT, GLFW_KEY_LEFT, GLFW_KEY_ESCAPE, GLFW_PRESS, uintMod]
  omega

/-- C8 witness: a LEFT-arrow press on the initial state (icon id 0)
wraps the icon id to `2^32 - 1`. -/
theorem key_cb_arrow_wraps_witness :
    (key_cb ⟨0, 4, false⟩ GLFW_KEY_LEFT 0 GLFW_PRESS 0).iconId0 = 2 ^ 32 - 1 :=
  (key_cb_arrow_wraps ⟨0, 4, false⟩ 0 0).2.2 rfl

/-- C9: `key_cb` never modifies the icons-per-side value `icon_id[1]`,
for any key, scancode, action and modifier combination. -/
theorem key_cb_preserves_iconId1 (st : AppState) (key sc action mods : ℤ) :
    (key_cb st key sc action mods).iconId1 = st.iconId1 := by
  rw [key_cb]
  split_ifs <;> rfl

/-- C10: for every `perSide ≥ 1` and every icon id — in range or not —
the shader's horizontal texture coordinates satisfy
`col = iconId mod perSide < perSide`, `0 ≤ uMin`, and
`uMax = uMin + square_side ≤ 1`. -/
theorem vs_tex_coord_u_in_range (perSide iconId : ℕ) (hn : 1 ≤ perSide) :
    iconId % perSide < perSide ∧
    0 ≤ vs_tex_coord_u iconId perSide 0 ∧
    vs_tex_coord_u iconId perSide 1 = vs_tex_coord_u iconId perSide 0 + square_side perSide ∧
    vs_tex_coord_u iconId perSide 1 ≤ 1 := by
  have hmod : iconId % perSide < perSide := Nat.mod_lt _ (by omega)
  have hn0 : (0 : ℚ) < (perSide : ℚ) := by exact_mod_cast (by omega : 0 < perSide)
  have hs : (0 : ℚ) < 1 / (perSide : ℚ) := by positivity
  have hc : ((iconId % perSide : ℕ) : ℚ) + 1 ≤ (perSide : ℚ) := by exact_mod_cast hmod
  refine ⟨hmod, ?_, ?_, ?_⟩
  · unfold vs_tex_coord_u square_side
    positivity
  · unfold vs_tex_coord_u
    ring
  · unfold vs_tex_coord_u square_side
    calc ((iconId % perSide : ℕ) : ℚ) * (1 / (perSide : ℚ)) + 1 * (1 / (perSide : ℚ))
        = (((iconId % perSide : ℕ) : ℚ) + 1) * (1 / (perSide : ℚ)) := by ring
      _ ≤ (perSide : ℚ) * (1 / (perSide : ℚ)) := mul_le_mul_of_nonneg_right hc (le_of_lt hs)
      _ = 1 := by field_simp

/-- C10 witness: with 4 icons per side and the out-of-range icon id 17,
the shader's horizontal coordinates still lie within `[0, 1]`. -/
theorem vs_tex_coord_u_in_range_witness :
    17 % 4 < 4 ∧ 0 ≤ vs_tex_coord_u 17 4 0 ∧
    vs_tex_coord_u 17 4 1 = vs_tex_coord_u 17 4 0 + square_side 4 ∧
    vs_tex_coord_u 17 4 1 ≤ 1 :=
  vs_tex_coord_u_in_range 4 17 (by decide)

end Icons
